import Mathlib

/-!
Shallow embedding of buckle (src/main.rs): a version-pinned launcher that
resolves a buck2 release asset, caches release metadata with a staleness
window, and installs the binary atomically via a same-directory temporary
file and rename.  Effectful Rust functions are modelled as pure functions
over explicit environments together with traces of filesystem/network
effects.
-/

namespace Buckle

/-! ## Data model (src/main.rs, `Asset` and `Release`)

Only the fields the resolution pipeline actually consults are modelled;
the remaining deserialized metadata fields (urls, ids, draft flags, author,
timestamps) are never read by the code under verification. -/

structure Asset where
  name : String
  browser_download_url : String
deriving DecidableEq, Repr

structure Release where
  tag_name : String
  target_commitish : String
  name : Option String
  assets : List Asset
deriving DecidableEq, Repr

/-! ## Target Resolver (src/main.rs, `get_arch`)

`env::consts::ARCH` and `env::consts::OS` are passed explicitly. -/

inductive ArchResult where
  | ok (target : String)
  | error (msg : String)
deriving DecidableEq, Repr

def get_arch (arch os : String) : ArchResult :=
  if arch = "x86_64" then
    if os = "linux" then .ok "x86_64-unknown-linux-gnu"
    else if os = "darwin" ∨ os = "macos" then .ok "x86_64-apple-darwin"
    else if os = "windows" then .ok "x86_64-pc-windows-msvc"
    else .error ("Unsupported Arch/OS: x86_64/" ++ os)
  else if arch = "aarch64" then
    if os = "linux" then .ok "aarch64-unknown-linux-gnu"
    else if os = "darwin" ∨ os = "macos" then .ok "aarch64-apple-darwin"
    else .error ("Unsupported Arch/OS: aarch64/" ++ os)
  else .error ("Unsupported Architecture: " ++ arch)

/-- The asset name the matcher looks for: `format!("buck2-{}.zst", arch)`
where `arch` is the canonical platform string from `get_arch`. -/
def assetPattern (target : String) : String := "buck2-" ++ target ++ ".zst"

/-! ## Artifact Matcher (src/main.rs, `download_http`, the `for release` loop)

The inner `for asset in release.assets` loop sets `artifact` to the first
asset whose name equals the pattern and then `break`s. -/

def scanAssets (assets : List Asset) (pattern : String) : Option (String × String) :=
  match assets with
  | [] => none
  | a :: rest =>
    if a.name = pattern then some (a.name, a.browser_download_url)
    else scanAssets rest pattern

/-- The outer `for release in releases` loop of `download_http`: for every
release whose `name` equals the requested version, first push
`target_commitish` onto `dir_path` when `tag_name` also equals the version,
then scan the release's assets, overwriting any previously found artifact.
Returns the final `dir_path` and `artifact`. -/
def downloadLoop (releases : List Release) (version pattern : String)
    (dirPath : List String) (artifact : Option (String × String)) :
    List String × Option (String × String) :=
  match releases with
  | [] => (dirPath, artifact)
  | r :: rest =>
    if r.name = some version then
      let dirPath' := if r.tag_name = version then dirPath ++ [r.target_commitish] else dirPath
      let artifact' := match scanAssets r.assets pattern with
        | some a => some a
        | none => artifact
      downloadLoop rest version pattern dirPath' artifact'
    else
      downloadLoop rest version pattern dirPath artifact

/-- The artifact selected by the matching loop, starting from no match. -/
def findArtifact (releases : List Release) (version pattern : String) :
    Option (String × String) :=
  (downloadLoop releases version pattern [] none).2

/-- Specification-side characterization of the `dir_path` components pushed
by the loop: one `target_commitish` per release whose name and tag both
equal the requested version. -/
def dirSuffix (releases : List Release) (version : String) : List String :=
  releases.filterMap fun r =>
    if r.name = some version ∧ r.tag_name = version then some r.target_commitish else none

/-! ## Release Metadata Fetcher staleness (src/main.rs, `get_releases`)

The unix branch compares the snapshot's mtime with the current time:
`(curr_time - last_modification_time).abs() < 60 * 60`. -/

def cacheIsFresh (lastModificationTime currTime : Int) : Bool :=
  (currTime - lastModificationTime).natAbs < 60 * 60

inductive ReleasesSource where
  | cached (buf : String)
  | fetched
deriving DecidableEq, Repr

/-- Whether `get_releases` serves the cached `releases.json` snapshot or
performs a network fetch.  `snapshot` is `some (mtime, bytes)` when the
file exists. -/
def getReleasesSource (snapshot : Option (Int × String)) (currTime : Int) :
    ReleasesSource :=
  match snapshot with
  | some (mtime, buf) =>
    if cacheIsFresh mtime currTime then .cached buf else .fetched
  | none => .fetched

/-! ## Filesystem effect model

`download_http` performs network and filesystem effects.  Each effect is
one `FsOp`; a run of the function yields the list of effects it performs
together with its return value.  Paths are (directory components, file
name) pairs rooted at the cache root. -/

structure FsPath where
  dir : List String
  file : String
deriving DecidableEq, Repr

inductive FsOp where
  /-- GET of the GitHub release-listing endpoint. -/
  | fetchReleaseList
  /-- `File::create` + `write_all` + `flush` of a whole file. -/
  | writeFile (p : FsPath) (data : String)
  /-- `fs::create_dir_all`. -/
  | createDirAll (d : List String)
  /-- GET of an arbitrary URL (prelude hash or artifact). -/
  | fetchUrl (url : String)
  /-- `NamedTempFile::new_in`: creates an empty temporary file. -/
  | createTemp (p : FsPath)
  /-- `zstd::stream::copy_decode` of the artifact into the temp file. -/
  | writeTemp (p : FsPath) (data : String)
  /-- `flush` of the temp file. -/
  | flushTemp (p : FsPath)
  /-- `fs::set_permissions` with the given unix mode. -/
  | setPermissions (p : FsPath) (mode : Nat)
  /-- `fs::rename src dst`. -/
  | rename (src dst : FsPath)
deriving DecidableEq, Repr

structure FileRec where
  data : String
  mode : Nat
  flushed : Bool
deriving DecidableEq, Repr

abbrev FsState := FsPath → Option FileRec

def applyOp (s : FsState) : FsOp → FsState
  | .fetchReleaseList => s
  | .fetchUrl _ => s
  | .createDirAll _ => s
  | .writeFile p data => fun q => if q = p then some ⟨data, 0o644, true⟩ else s q
  | .createTemp p => fun q => if q = p then some ⟨"", 0o600, false⟩ else s q
  | .writeTemp p data => fun q =>
      if q = p then (s p).map (fun r => { r with data := data }) else s q
  | .flushTemp p => fun q =>
      if q = p then (s p).map (fun r => { r with flushed := true }) else s q
  | .setPermissions p m => fun q =>
      if q = p then (s p).map (fun r => { r with mode := m }) else s q
  | .rename src dst => fun q =>
      if q = dst then s src else if q = src then none else s q

def applyOps (s : FsState) : List FsOp → FsState
  | [] => s
  | op :: rest => applyOps (applyOp s op) rest

/-- Whether an effect writes to, creates, or renames onto the given path. -/
def targetsPath (op : FsOp) (p : FsPath) : Bool :=
  match op with
  | .writeFile q _ => q = p
  | .createTemp q => q = p
  | .writeTemp q _ => q = p
  | .flushTemp q => q = p
  | .setPermissions q _ => q = p
  | .rename _ dst => dst = p
  | _ => false

/-- Whether an effect can make the given path exist when it did not. -/
def makesPresent (op : FsOp) (p : FsPath) : Bool :=
  match op with
  | .writeFile q _ => q = p
  | .createTemp q => q = p
  | .rename _ dst => dst = p
  | _ => false

/-! ## `download_http` (src/main.rs)

The environment collects the ambient inputs of the real function: the
deserialized release list, the state of the `releases.json` snapshot, the
current time, the canonical platform string already obtained from
`get_arch`, the random name chosen by `NamedTempFile`, whether the final
binary already exists at `dir_path/buck2`, and the bytes produced by the
network and the zstd decoder. -/

structure DownloadEnv where
  releases : List Release
  /-- `some (mtime, bytes)` when `releases.json` exists in the output dir. -/
  snapshot : Option (Int × String)
  currTime : Int
  /-- Canonical platform string returned by `get_arch` (its failure aborts
  `download_http` before any effect on the final path and is not modelled). -/
  arch : String
  /-- Random file name chosen by `NamedTempFile::new_in`. -/
  tmpName : String
  /-- Whether a file already exists at `dir_path/buck2`. -/
  binaryPresent : Bool
  /-- Raw text of the freshly fetched release list. -/
  releaseListText : String
  /-- Bytes of the fetched `prelude_hash`. -/
  preludeHashData : String
  /-- Decoded bytes of the fetched artifact. -/
  artifactData : String
deriving Repr

inductive DlOutcome where
  | err (msg : String)
  | ok (dirPath : List String)
deriving DecidableEq, Repr

structure DownloadResult where
  ops : List FsOp
  result : DlOutcome
deriving DecidableEq, Repr

/-- Effects of `get_releases`: nothing when the snapshot is fresh, else a
network fetch followed by rewriting the snapshot. -/
def getReleasesOps (outputDir : List String) (env : DownloadEnv) : List FsOp :=
  match getReleasesSource env.snapshot env.currTime with
  | .cached _ => []
  | .fetched => [.fetchReleaseList, .writeFile ⟨outputDir, "releases.json"⟩ env.releaseListText]

def noMatchMsg (version : String) : String :=
  version ++ " was not available. Please check 'https://github.com/facebook/buck2/tags' for available releases."

def preludeHashUrl (version : String) : String :=
  "https://github.com/facebook/buck2/releases/download/" ++ version ++ "/prelude_hash"

/-- Effects of the installation tail of `download_http` (after the
existence short-circuit failed): create the release directory, fetch and
store `prelude_hash`, stream-decode the artifact into a same-directory
temporary file, flush it, mark it executable, and rename it to `buck2`. -/
def installOps (dirPath : List String) (env : DownloadEnv) (version url : String) :
    List FsOp :=
  [.createDirAll dirPath,
   .fetchUrl (preludeHashUrl version),
   .writeFile ⟨dirPath, "prelude_hash"⟩ env.preludeHashData,
   .createTemp ⟨dirPath, env.tmpName⟩,
   .fetchUrl url,
   .writeTemp ⟨dirPath, env.tmpName⟩ env.artifactData,
   .flushTemp ⟨dirPath, env.tmpName⟩,
   .setPermissions ⟨dirPath, env.tmpName⟩ 0o755,
   .rename ⟨dirPath, env.tmpName⟩ ⟨dirPath, "buck2"⟩]

def download_http (env : DownloadEnv) (version : String) (outputDir : List String) :
    DownloadResult :=
  let relOps := getReleasesOps outputDir env
  let scan := downloadLoop env.releases version (assetPattern env.arch) outputDir none
  match scan.2 with
  | none => ⟨relOps, .err (noMatchMsg version)⟩
  | some (_, url) =>
    if env.binaryPresent then ⟨relOps, .ok scan.1⟩
    else ⟨relOps ++ installOps scan.1 env version url, .ok scan.1⟩

/-! ## Character-list string primitives

Rust string operations are modelled structurally over the character list,
so every definition evaluates by kernel reduction.  `seqIsPre n l` holds
when `n` is a prefix of `l`; `strContains s sub` holds when `sub` occurs
contiguously in `s` (used to state which values an error message does and
does not name). -/

def seqIsPre {α : Type} [DecidableEq α] : List α → List α → Bool
  | [], _ => true
  | _ :: _, [] => false
  | a :: as, b :: bs => a = b && seqIsPre as bs

def seqContains {α : Type} [DecidableEq α] (needle : List α) : List α → Bool
  | [] => seqIsPre needle []
  | l@(_ :: rest) => seqIsPre needle l || seqContains needle rest

def strContains (s sub : String) : Bool :=
  seqContains sub.data s.data

/-- Rust `str::trim`: strip whitespace from both ends.  Modelled over the
character list with `Char.isWhitespace`. -/
def strTrim (s : String) : String :=
  ⟨((s.data.dropWhile Char.isWhitespace).reverse.dropWhile Char.isWhitespace).reverse⟩

/-! ## Version selection (src/main.rs, `read_buck2_version`)

`env::var("USE_BUCK2_VERSION")` is modelled as `Option String`;
`projectRoot` is the memoized `get_buck2_project_root()`, and
`buckversion` is `some contents` exactly when `.buckversion` exists at the
project root (a read error would propagate and is not modelled). -/

def read_buck2_version (useBuck2VersionVar : Option String)
    (projectRoot : Option String) (buckversion : Option String) : String :=
  match useBuck2VersionVar with
  | some version => version
  | none =>
    match projectRoot with
    | some _ =>
      match buckversion with
      | some contents => strTrim contents
      | none => "latest"
    | none => "latest"

/-! ## Integrity Verifier (src/main.rs, `verify_prelude`,
`get_expected_prelude_hash`, `mismatched_prelude_msg`)

The git environment is explicit: `repo` is the result of
`Repository::open_from_env()`, a repository has an optional working
directory (none for a bare repository, modelled as a string path ending in
the separator) and a submodule table mapping repo-relative paths to
optional checked-out object ids.  `preludeHashFile` is the contents of the
`prelude_hash` marker file in the buck2 cache directory when that file
exists.  A Rust `expect`/`unwrap` abort is the `panicked` outcome. -/

structure Submodule where
  path : String
  workdirId : Option String
deriving DecidableEq, Repr

structure RepoInfo where
  workdir : Option String
  submodules : List Submodule
deriving DecidableEq, Repr

structure VerifyEnv where
  projectRoot : Option String
  repo : Option RepoInfo
  preludeHashFile : Option String
deriving DecidableEq, Repr

inductive VerifyOutcome where
  | ok (warnings : List String)
  | panicked (msg : String)
deriving DecidableEq, Repr

/-- `Path::strip_prefix`, on the string model of paths. -/
def stripPathPre (pre s : String) : Option String :=
  if seqIsPre pre.data s.data then some ⟨s.data.drop pre.data.length⟩ else none

def findSubmodule (subs : List Submodule) (path : String) : Option Submodule :=
  subs.find? fun sub => sub.path = path

inductive ExpectedHash where
  | found (hash : String)
  | panicked (msg : String)
deriving DecidableEq, Repr

/-- `get_expected_prelude_hash`: opens the marker file and trims it; the
`unwrap` on `File::open` aborts the process when the file is absent. -/
def get_expected_prelude_hash (marker : Option String) : ExpectedHash :=
  match marker with
  | none => .panicked "called Result::unwrap on an Err value: prelude_hash could not be opened"
  | some contents => .found (strTrim contents)

/-- The two `eprintln!` lines of `mismatched_prelude_msg`. -/
def mismatched_prelude_msg (absPath preludeHash expectedHash : String) :
    List String :=
  ["buckle: Git submodule for prelude (" ++ preludeHash ++ ") is not the expected "
     ++ expectedHash ++ ".",
   "buckle: cd " ++ absPath ++ " && git fetch && git checkout " ++ expectedHash]

def verify_prelude (env : VerifyEnv) (preludePath : String) : VerifyOutcome :=
  match env.projectRoot with
  | none => .ok []
  | some root =>
    let absolutePreludePath := root ++ "/" ++ preludePath
    match env.repo with
    | none => .ok []
    | some repo =>
      match repo.workdir with
      | none => .panicked "buck2 is not for bare git repos"
      | some workdir =>
        match stripPathPre workdir absolutePreludePath with
        | none => .panicked "buck2 prelude is not in the same git repo"
        | some gitRelativePreludePath =>
          match findSubmodule repo.submodules gitRelativePreludePath with
          | none => .ok []
          | some prelude =>
            match prelude.workdirId with
            | none => .ok []
            | some preludeHash =>
              match get_expected_prelude_hash env.preludeHashFile with
              | .panicked msg => .panicked msg
              | .found expectedHash =>
                if preludeHash ≠ expectedHash then
                  .ok (mismatched_prelude_msg absolutePreludePath preludeHash expectedHash)
                else .ok []

/-! ## Helper lemmas -/

theorem seqIsPre_append_self {α : Type} [DecidableEq α] (l m : List α) :
    seqIsPre l (l ++ m) = true := by
  induction l with
  | nil => rfl
  | cons a as ih => simp [seqIsPre, ih]

theorem seqContains_of_seqIsPre {α : Type} [DecidableEq α] {n l : List α}
    (h : seqIsPre n l = true) : seqContains n l = true := by
  cases l with
  | nil => simpa [seqContains] using h
  | cons b bs => simp [seqContains, h]

theorem seqContains_append_left {α : Type} [DecidableEq α] (l : List α) {n m : List α}
    (h : seqContains n m = true) : seqContains n (l ++ m) = true := by
  induction l with
  | nil => simpa using h
  | cons a as ih =>
    show seqContains n (a :: (as ++ m)) = true
    simp only [seqContains, Bool.or_eq_true]
    exact Or.inr ih

theorem strContains_left_self (v rest : String) :
    strContains (v ++ rest) v = true := by
  simp only [strContains, String.data_append]
  exact seqContains_of_seqIsPre (seqIsPre_append_self _ _)

theorem seqContains_self {α : Type} [DecidableEq α] (l : List α) :
    seqContains l l = true := by
  cases l with
  | nil => rfl
  | cons a as =>
    have := seqIsPre_append_self (a :: as) ([] : List α)
    simp at this
    simp [seqContains, this]

theorem strContains_right_self (pre s : String) :
    strContains (pre ++ s) s = true := by
  simp only [strContains, String.data_append]
  exact seqContains_append_left _ (seqContains_self _)

theorem getLast?_cons_form {α : Type} (a : α) (l : List α) :
    (a :: l).getLast? =
      (match l.getLast? with
       | none => some a
       | some b => some b) := by
  cases l with
  | nil => rfl
  | cons b t =>
    rw [List.getLast?_cons_cons]
    have hsome : (b :: t).getLast?.isSome = true := by
      rw [List.getLast?_isSome]; simp
    cases h : (b :: t).getLast? with
    | none => rw [h] at hsome; simp at hsome
    | some c => simp

theorem downloadLoop_fst (releases : List Release) (version pattern : String) :
    ∀ (dirPath : List String) (artifact : Option (String × String)),
    (downloadLoop releases version pattern dirPath artifact).1
      = dirPath ++ dirSuffix releases version := by
  induction releases with
  | nil => intro d acc; simp [downloadLoop, dirSuffix]
  | cons r rest ih =>
    intro d acc
    by_cases h1 : r.name = some version
    · by_cases h2 : r.tag_name = version
      · simp only [downloadLoop, if_pos h1, if_pos h2, ih]
        simp [dirSuffix, List.filterMap_cons, h1, h2]
      · simp only [downloadLoop, if_pos h1, if_neg h2, ih]
        simp [dirSuffix, List.filterMap_cons, h1, h2]
    · simp only [downloadLoop, if_neg h1, ih]
      simp [dirSuffix, List.filterMap_cons, h1]

theorem downloadLoop_snd_dir_irrel (releases : List Release) (version pattern : String) :
    ∀ (d d' : List String) (artifact : Option (String × String)),
    (downloadLoop releases version pattern d artifact).2
      = (downloadLoop releases version pattern d' artifact).2 := by
  induction releases with
  | nil => intro d d' acc; rfl
  | cons r rest ih =>
    intro d d' acc
    by_cases h1 : r.name = some version
    · simp only [downloadLoop, if_pos h1]; exact ih _ _ _
    · simp only [downloadLoop, if_neg h1]; exact ih _ _ _

/-- The matched releases, in fetch order, that contribute a candidate asset. -/
def matchCandidates (releases : List Release) (version pattern : String) :
    List (String × String) :=
  (releases.filter fun r => decide (r.name = some version)).filterMap
    fun r => scanAssets r.assets pattern

theorem downloadLoop_snd_char (releases : List Release) (version pattern : String) :
    ∀ (d : List String) (artifact : Option (String × String)),
    (downloadLoop releases version pattern d artifact).2
      = (match (matchCandidates releases version pattern).getLast? with
         | some a => some a
         | none => artifact) := by
  induction releases with
  | nil => intro d acc; simp [downloadLoop, matchCandidates]
  | cons r rest ih =>
    intro d acc
    by_cases h1 : r.name = some version
    · simp only [downloadLoop, if_pos h1]
      cases hscan : scanAssets r.assets pattern with
      | none =>
        rw [ih]
        simp [matchCandidates, List.filter_cons, h1, List.filterMap_cons, hscan,
          matchCandidates]
      | some a =>
        rw [ih]
        have hcand : matchCandidates (r :: rest) version pattern
            = a :: matchCandidates rest version pattern := by
          simp [matchCandidates, List.filter_cons, h1, List.filterMap_cons, hscan]
        rw [hcand, getLast?_cons_form]
        cases h : (matchCandidates rest version pattern).getLast? <;> simp
    · simp only [downloadLoop, if_neg h1]
      rw [ih]
      simp [matchCandidates, List.filter_cons, h1]

theorem applyOps_append (l m : List FsOp) : ∀ s : FsState,
    applyOps s (l ++ m) = applyOps (applyOps s l) m := by
  induction l with
  | nil => intro s; rfl
  | cons op rest ih => intro s; simp [applyOps, ih]

theorem applyOp_absent {s : FsState} {op : FsOp} {p : FsPath}
    (h : makesPresent op p = false) (h0 : s p = none) : applyOp s op p = none := by
  cases op with
  | fetchReleaseList => exact h0
  | fetchUrl _ => exact h0
  | createDirAll _ => exact h0
  | writeFile q data =>
    simp only [makesPresent, decide_eq_false_iff_not] at h
    have h' : ¬p = q := fun e => h e.symm
    simp only [applyOp, if_neg h']
    exact h0
  | createTemp q =>
    simp only [makesPresent, decide_eq_false_iff_not] at h
    have h' : ¬p = q := fun e => h e.symm
    simp only [applyOp, if_neg h']
    exact h0
  | writeTemp q data =>
    by_cases hpq : p = q
    · subst hpq; simp [applyOp, h0]
    · simp only [applyOp, if_neg hpq]; exact h0
  | flushTemp q =>
    by_cases hpq : p = q
    · subst hpq; simp [applyOp, h0]
    · simp only [applyOp, if_neg hpq]; exact h0
  | setPermissions q m =>
    by_cases hpq : p = q
    · subst hpq; simp [applyOp, h0]
    · simp only [applyOp, if_neg hpq]; exact h0
  | rename src dst =>
    simp only [makesPresent, decide_eq_false_iff_not] at h
    have hd : ¬p = dst := fun e => h e.symm
    simp only [applyOp, if_neg hd]
    by_cases hs : p = src
    · rw [if_pos hs]
    · rw [if_neg hs]; exact h0

theorem applyOps_absent {ops : List FsOp} {p : FsPath}
    (h : ∀ op ∈ ops, makesPresent op p = false) :
    ∀ s : FsState, s p = none → applyOps s ops p = none := by
  induction ops with
  | nil => intro s h0; exact h0
  | cons op rest ih =>
    intro s h0
    simp only [applyOps]
    exact ih (fun o ho => h o (List.mem_cons_of_mem _ ho))
      _ (applyOp_absent (h op (List.mem_cons_self _ _)) h0)

theorem mem_take_of_lt_length {α : Type} {l : List α} {k : Nat} (hk : k < l.length) :
    ∀ x ∈ l.take k, x ∈ l.dropLast := by
  intro x hx
  have h1 : l.take k = (l.dropLast).take k := by
    rw [List.dropLast_eq_take, List.take_take]
    congr 1
    omega
  rw [h1] at hx
  exact List.take_subset _ _ hx

theorem getReleasesOps_shape (outputDir : List String) (env : DownloadEnv) :
    getReleasesOps outputDir env = []
    ∨ getReleasesOps outputDir env
        = [.fetchReleaseList, .writeFile ⟨outputDir, "releases.json"⟩ env.releaseListText] := by
  unfold getReleasesOps
  cases getReleasesSource env.snapshot env.currTime with
  | cached buf => exact Or.inl rfl
  | fetched => exact Or.inr rfl

theorem getReleasesOps_no_buck2 (outputDir : List String) (env : DownloadEnv)
    (d : List String) :
    ∀ op ∈ getReleasesOps outputDir env,
      targetsPath op ⟨d, "buck2"⟩ = false ∧ makesPresent op ⟨d, "buck2"⟩ = false := by
  intro op hop
  rcases getReleasesOps_shape outputDir env with h | h <;> rw [h] at hop
  · simp at hop
  · simp only [List.mem_cons, List.not_mem_nil, or_false] at hop
    rcases hop with rfl | rfl
    · exact ⟨rfl, rfl⟩
    · constructor <;> simp [targetsPath, makesPresent, FsPath.mk.injEq]

/-! ## Concrete fixtures used by witnesses and counterexamples -/

def sampleRelease : Release :=
  { tag_name := "latest", target_commitish := "abc123", name := some "latest",
    assets := [⟨"buck2-x86_64-unknown-linux-gnu.zst", "https://example.com/a"⟩] }

def sampleEnv : DownloadEnv :=
  { releases := [sampleRelease], snapshot := some (0, "[]"), currTime := 100,
    arch := "x86_64-unknown-linux-gnu", tmpName := ".tmpX1", binaryPresent := false,
    releaseListText := "[]", preludeHashData := "hash", artifactData := "BIN" }

/-! ## Claim theorems -/

/-- C9: with architecture `x86_64` and OS `linux` the canonical platform
string is `x86_64-unknown-linux-gnu`, and the substituted asset pattern the
matcher looks for is exactly `buck2-x86_64-unknown-linux-gnu.zst`. -/
theorem pattern_substitution_x86_64_linux :
    get_arch "x86_64" "linux" = .ok "x86_64-unknown-linux-gnu"
    ∧ assetPattern "x86_64-unknown-linux-gnu" = "buck2-x86_64-unknown-linux-gnu.zst" := by
  constructor
  · decide
  · decide

/-- C3: the matcher considers exactly the releases whose recorded `name`
equals the requested version; within each such release it takes the first
asset whose name equals the substituted pattern (stopping that release's
scan), and because scanning of later releases continues, the last release
in fetch order that contributes a candidate determines the selected
asset. -/
theorem artifact_matcher_last_release_first_asset
    (releases : List Release) (version target : String) :
    (findArtifact releases version (assetPattern target)
      = (matchCandidates releases version (assetPattern target)).getLast?)
    ∧ (matchCandidates releases version (assetPattern target)
        = (releases.filter fun r => decide (r.name = some version)).filterMap
            (fun r => scanAssets r.assets (assetPattern target)))
    ∧ (∀ assets : List Asset,
        scanAssets assets (assetPattern target)
          = (assets.find? fun a => decide (a.name = assetPattern target)).map
              (fun a => (a.name, a.browser_download_url))) := by
  refine ⟨?_, rfl, ?_⟩
  · rw [findArtifact, downloadLoop_snd_char]
    cases (matchCandidates releases version (assetPattern target)).getLast? <;> simp
  · intro assets
    induction assets with
    | nil => rfl
    | cons a rest ih =>
      by_cases h : a.name = assetPattern target
      · simp [scanAssets, h, List.find?_cons_of_pos]
      · simp only [scanAssets, if_neg h, ih]
        rw [List.find?_cons_of_neg]
        simpa using h

/-- C4 counterexample: a snapshot written at time T = 0 read at exactly
T + 3600 is within the claim's "any time ≤ T+3600" window, yet the code
refetches (`(curr - mtime).abs() < 3600` is strict). -/
theorem staleness_window_cex :
    getReleasesSource (some (0, "cached-bytes")) 3600 = .fetched
    ∧ ((3600 : Int) ≤ 0 + 3600) := by
  constructor
  · decide
  · decide

/-- C4 (amended): a snapshot written at time T is served from the cache,
with no network fetch and no write, exactly when the read time t satisfies
|t − T| < 3600 — in particular for T ≤ t ≤ T+3599; a read at t ≥ T+3600
(not T+3601) already triggers a fresh fetch followed by rewriting the
snapshot. -/
theorem get_releases_staleness (env : DownloadEnv) (outputDir : List String)
    (mtime : Int) (buf : String) (hsnap : env.snapshot = some (mtime, buf)) :
    (mtime ≤ env.currTime → env.currTime < mtime + 3600 →
       getReleasesSource env.snapshot env.currTime = .cached buf
       ∧ getReleasesOps outputDir env = [])
    ∧ (mtime + 3600 ≤ env.currTime →
       getReleasesSource env.snapshot env.currTime = .fetched
       ∧ getReleasesOps outputDir env
           = [.fetchReleaseList,
              .writeFile ⟨outputDir, "releases.json"⟩ env.releaseListText]) := by
  refine ⟨fun hle hlt => ?_, fun hge => ?_⟩
  · have hfresh : cacheIsFresh mtime env.currTime = true := by
      simp only [cacheIsFresh, decide_eq_true_eq]
      omega
    refine ⟨?_, ?_⟩
    · simp [getReleasesSource, hsnap, hfresh]
    · simp [getReleasesOps, getReleasesSource, hsnap, hfresh]
  · have hfresh : cacheIsFresh mtime env.currTime = false := by
      simp only [cacheIsFresh, decide_eq_false_iff_not]
      omega
    refine ⟨?_, ?_⟩
    · simp [getReleasesSource, hsnap, hfresh]
    · simp [getReleasesOps, getReleasesSource, hsnap, hfresh]

/-- Witness for the amended C4 theorem at the sample environment: its
snapshot was written at T = 0 and is read at t = 100, so it is served from
the cache with no effects. -/
theorem get_releases_staleness_witness :
    sampleEnv.snapshot = some (0, "[]")
    ∧ (0 : Int) ≤ sampleEnv.currTime
    ∧ sampleEnv.currTime < 0 + 3600
    ∧ (getReleasesSource sampleEnv.snapshot sampleEnv.currTime = .cached "[]"
       ∧ getReleasesOps ["root"] sampleEnv = []) :=
  ⟨rfl, by decide, by decide,
   (get_releases_staleness sampleEnv ["root"] 0 "[]" rfl).1 (by decide) (by decide)⟩

/-- C7 counterexample: an unsupported architecture (here `riscv64` on
`linux`) produces `Unsupported Architecture: riscv64`, which does not name
the OS value, contrary to the claim that the message names both. -/
theorem target_resolver_cex :
    get_arch "riscv64" "linux" = .error "Unsupported Architecture: riscv64"
    ∧ strContains "Unsupported Architecture: riscv64" "linux" = false := by
  constructor
  · decide
  · decide

/-- C7 (amended): the Target Resolver is a pure table over (architecture,
OS); a supported architecture with an unsupported OS fails with a message
naming both values, but an unsupported architecture fails with a message
naming only the architecture. -/
theorem get_arch_table (arch os : String) :
    (get_arch "x86_64" "linux" = .ok "x86_64-unknown-linux-gnu")
    ∧ (get_arch "x86_64" "darwin" = .ok "x86_64-apple-darwin")
    ∧ (get_arch "x86_64" "macos" = .ok "x86_64-apple-darwin")
    ∧ (get_arch "x86_64" "windows" = .ok "x86_64-pc-windows-msvc")
    ∧ (get_arch "aarch64" "linux" = .ok "aarch64-unknown-linux-gnu")
    ∧ (get_arch "aarch64" "darwin" = .ok "aarch64-apple-darwin")
    ∧ (get_arch "aarch64" "macos" = .ok "aarch64-apple-darwin")
    ∧ (arch = "x86_64" → os ≠ "linux" → os ≠ "darwin" → os ≠ "macos" → os ≠ "windows" →
        get_arch arch os = .error ("Unsupported Arch/OS: x86_64/" ++ os)
        ∧ strContains ("Unsupported Arch/OS: x86_64/" ++ os) os = true)
    ∧ (arch = "aarch64" → os ≠ "linux" → os ≠ "darwin" → os ≠ "macos" →
        get_arch arch os = .error ("Unsupported Arch/OS: aarch64/" ++ os)
        ∧ strContains ("Unsupported Arch/OS: aarch64/" ++ os) os = true)
    ∧ (arch ≠ "x86_64" → arch ≠ "aarch64" →
        get_arch arch os = .error ("Unsupported Architecture: " ++ arch)
        ∧ strContains ("Unsupported Architecture: " ++ arch) arch = true) := by
  refine ⟨by decide, by decide, by decide, by decide, by decide, by decide, by decide,
    ?_, ?_, ?_⟩
  · intro ha h1 h2 h3 h4
    subst ha
    refine ⟨?_, strContains_right_self _ _⟩
    simp [get_arch, h1, h2, h3, h4]
  · intro ha h1 h2 h3
    subst ha
    refine ⟨?_, strContains_right_self _ _⟩
    simp [get_arch, h1, h2, h3]
  · intro h1 h2
    refine ⟨?_, strContains_right_self _ _⟩
    simp [get_arch, h1, h2]

/-- Witness for the amended C7 theorem: the unsupported architecture
`mips` on OS `plan9` yields the architecture-only message. -/
theorem get_arch_table_witness :
    ("mips" : String) ≠ "x86_64"
    ∧ ("mips" : String) ≠ "aarch64"
    ∧ (get_arch "mips" "plan9" = .error ("Unsupported Architecture: " ++ "mips")
       ∧ strContains ("Unsupported Architecture: " ++ "mips") "mips" = true) :=
  ⟨by decide, by decide,
   (get_arch_table "mips" "plan9").2.2.2.2.2.2.2.2.2 (by decide) (by decide)⟩

/-- C10: the requested version is the `USE_BUCK2_VERSION` environment
variable when set, else the trimmed contents of `.buckversion` at the
project root when that file exists, else the literal `latest`. -/
theorem read_buck2_version_precedence (envVar root file : Option String) :
    (∀ v, envVar = some v → read_buck2_version envVar root file = v)
    ∧ (envVar = none → ∀ r c, root = some r → file = some c →
        read_buck2_version envVar root file = strTrim c)
    ∧ (envVar = none → (root = none ∨ file = none) →
        read_buck2_version envVar root file = "latest") := by
  refine ⟨?_, ?_, ?_⟩
  · intro v hv
    subst hv
    rfl
  · intro he r c hr hc
    subst he; subst hr; subst hc
    rfl
  · intro he hnone
    subst he
    rcases hnone with h | h
    · subst h; rfl
    · subst h
      cases root <;> rfl

/-- Witness for C10: with `USE_BUCK2_VERSION` set, the variable wins over
an existing `.buckversion` file. -/
theorem read_buck2_version_precedence_witness :
    ((some "v20230701" : Option String) = some "v20230701")
    ∧ read_buck2_version (some "v20230701") (some "/proj") (some "other\n") = "v20230701" :=
  ⟨rfl,
   (read_buck2_version_precedence (some "v20230701") (some "/proj") (some "other\n")).1
     "v20230701" rfl⟩

/-- C6 counterexample: on a no-match resolution the error message does not
contain the substituted asset pattern (here
`buck2-x86_64-unknown-linux-gnu.zst`); it names the requested version and
the tags URL instead. -/
theorem no_match_cex :
    (download_http sampleEnv "v9.9.9" ["root"]).result = .err (noMatchMsg "v9.9.9")
    ∧ strContains (noMatchMsg "v9.9.9") (assetPattern "x86_64-unknown-linux-gnu") = false := by
  constructor
  · decide
  · decide

/-- C6 (amended): when no asset matches the requested version across all
releases, resolution fails with a fatal error that names the requested
version and points at the upstream tags page (whose URL names the
owner/repo `facebook/buck2`); the substituted pattern is not part of the
message, and no other version is silently substituted. -/
theorem no_match_error (env : DownloadEnv) (version : String) (outputDir : List String)
    (hnone : findArtifact env.releases version (assetPattern env.arch) = none) :
    (download_http env version outputDir).result = .err (noMatchMsg version)
    ∧ noMatchMsg version
        = version ++ " was not available. Please check 'https://github.com/facebook/buck2/tags' for available releases."
    ∧ strContains (noMatchMsg version) version = true
    ∧ strContains (noMatchMsg version) "facebook/buck2" = true := by
  have hscan :
      (downloadLoop env.releases version (assetPattern env.arch) outputDir none).2 = none := by
    rw [downloadLoop_snd_dir_irrel env.releases version (assetPattern env.arch) outputDir []]
    exact hnone
  refine ⟨?_, rfl, ?_, ?_⟩
  · simp [download_http, hscan]
  · unfold noMatchMsg
    exact strContains_left_self _ _
  · unfold noMatchMsg
    simp only [strContains, String.data_append]
    exact seqContains_append_left _ (by decide)

/-- Witness for the amended C6 theorem at a concrete environment whose
release list has no release named `v9.9.9`. -/
theorem no_match_error_witness :
    findArtifact sampleEnv.releases "v9.9.9" (assetPattern sampleEnv.arch) = none
    ∧ (download_http sampleEnv "v9.9.9" ["w"]).result = .err (noMatchMsg "v9.9.9") :=
  ⟨by decide, (no_match_error sampleEnv "v9.9.9" ["w"] (by decide)).1⟩

/-- A release list whose matching release has a tag different from its
name, with a stale (absent) snapshot and the final binary already
present. -/
def staleRelease : Release :=
  { tag_name := "zzz", target_commitish := "abc", name := some "v1",
    assets := [⟨"buck2-x86_64-unknown-linux-gnu.zst", "https://example.com/b"⟩] }

def staleExistsEnv : DownloadEnv :=
  { releases := [staleRelease],
    snapshot := none, currTime := 0, arch := "x86_64-unknown-linux-gnu",
    tmpName := ".tmpY2", binaryPresent := true, releaseListText := "[]",
    preludeHashData := "h", artifactData := "B" }

/-- C5 counterexample: with the final binary already present but a stale
release-list snapshot, `download_http` still performs the release-list
fetch and writes `releases.json` into `["root"]` — the very directory of
the returned path (the destination directory of `buck2`) — before the
short-circuit return, contradicting "without ... performing any other
write to the destination directory". -/
theorem short_circuit_cex :
    staleExistsEnv.binaryPresent = true
    ∧ (download_http staleExistsEnv "v1" ["root"]).result = .ok ["root"]
    ∧ (FsOp.writeFile ⟨["root"], "releases.json"⟩ "[]")
        ∈ (download_http staleExistsEnv "v1" ["root"]).ops := by
  refine ⟨rfl, by decide, by decide⟩

/-- C5 (amended): when the final binary exists, `download_http` returns the
same path (determined by the inputs alone) and performs no artifact
download, no marker-file write, no temporary-file creation and no rename;
the only effects that may still occur, before the existence check, are the
release-list fetch and the snapshot write of `releases.json` into the
output directory, and with a fresh snapshot no effect occurs at all. -/
theorem short_circuit_existing_binary (env : DownloadEnv) (version : String)
    (outputDir : List String) (a : String × String)
    (hfind : findArtifact env.releases version (assetPattern env.arch) = some a)
    (hbin : env.binaryPresent = true) :
    (download_http env version outputDir).result
      = .ok (outputDir ++ dirSuffix env.releases version)
    ∧ (download_http env version outputDir).ops = getReleasesOps outputDir env
    ∧ (∀ op ∈ (download_http env version outputDir).ops,
        op = .fetchReleaseList
        ∨ op = .writeFile ⟨outputDir, "releases.json"⟩ env.releaseListText)
    ∧ (∀ mtime buf, env.snapshot = some (mtime, buf) →
        cacheIsFresh mtime env.currTime = true →
        (download_http env version outputDir).ops = []) := by
  have hscan :
      (downloadLoop env.releases version (assetPattern env.arch) outputDir none).2
        = some a := by
    rw [downloadLoop_snd_dir_irrel env.releases version (assetPattern env.arch) outputDir []]
    exact hfind
  obtain ⟨nm, url⟩ := a
  have hdl : download_http env version outputDir
      = ⟨getReleasesOps outputDir env, .ok (outputDir ++ dirSuffix env.releases version)⟩ := by
    simp [download_http, hscan, hbin, downloadLoop_fst]
  refine ⟨by rw [hdl], by rw [hdl], ?_, ?_⟩
  · rw [hdl]
    intro op hop
    rcases getReleasesOps_shape outputDir env with h | h <;> rw [h] at hop
    · simp at hop
    · simpa using hop
  · intro mtime buf hsnap hfresh
    rw [hdl]
    simp [getReleasesOps, getReleasesSource, hsnap, hfresh]

/-- Witness for the amended C5 theorem. -/
theorem short_circuit_witness :
    findArtifact staleExistsEnv.releases "v1" (assetPattern staleExistsEnv.arch)
      = some ("buck2-x86_64-unknown-linux-gnu.zst", "https://example.com/b")
    ∧ staleExistsEnv.binaryPresent = true
    ∧ (download_http staleExistsEnv "v1" ["w"]).result
        = .ok (["w"] ++ dirSuffix staleExistsEnv.releases "v1") :=
  ⟨by decide, rfl,
   (short_circuit_existing_binary staleExistsEnv "v1" ["w"]
      ("buck2-x86_64-unknown-linux-gnu.zst", "https://example.com/b") (by decide) rfl).1⟩

/-- A release list whose matching release is a concrete version whose tag
equals its name. -/
def concreteTagRelease : Release :=
  { tag_name := "v1.0", target_commitish := "abc123", name := some "v1.0",
    assets := [⟨"buck2-x86_64-unknown-linux-gnu.zst", "https://example.com/c"⟩] }

def concreteTagEnv : DownloadEnv :=
  { releases := [concreteTagRelease],
    snapshot := some (0, "[]"), currTime := 0, arch := "x86_64-unknown-linux-gnu",
    tmpName := ".tmpZ3", binaryPresent := true, releaseListText := "[]",
    preludeHashData := "h", artifactData := "B" }

/-- C8 counterexample: for the concrete (non-"latest") version `v1.0`, the
destination subdirectory is `abc123` — the release's target-commit label —
not the resolved asset's own name, contrary to the claim that a concrete
version keys the subdirectory by the asset name. -/
theorem dir_keying_cex :
    ("v1.0" : String) ≠ "latest"
    ∧ (download_http concreteTagEnv "v1.0" ["root"]).result = .ok ["root", "abc123"]
    ∧ (download_http concreteTagEnv "v1.0" ["root"]).result
        ≠ .ok ["root", "buck2-x86_64-unknown-linux-gnu.zst"] := by
  refine ⟨by decide, by decide, by decide⟩

/-- C8 (amended): whatever the requested version ("latest" or concrete),
the destination subdirectory components are the target-commit labels of
the releases whose name and tag both equal the requested version, one per
such release, and never involve the asset's name; the choice of directory
does not affect which asset is matched (the selected artifact is
independent of the directory accumulator). -/
theorem dir_keying (env : DownloadEnv) (version : String) (outputDir : List String) :
    (downloadLoop env.releases version (assetPattern env.arch) outputDir none).1
      = outputDir ++ env.releases.filterMap (fun r =>
          if r.name = some version ∧ r.tag_name = version
          then some r.target_commitish else none)
    ∧ (∀ d d' : List String,
        (downloadLoop env.releases version (assetPattern env.arch) d none).2
          = (downloadLoop env.releases version (assetPattern env.arch) d' none).2) :=
  ⟨downloadLoop_fst env.releases version (assetPattern env.arch) outputDir none,
   fun d d' => downloadLoop_snd_dir_irrel env.releases version (assetPattern env.arch) d d' none⟩

/-- Core property of the install trace: after any effect prefix `G` that
never touches `⟨D, "buck2"⟩`, the trace `G ++ installOps D env version url`
publishes the final path only through its terminal rename, whose source is
a fully written, flushed, mode-0755 temporary file in the same directory
`D`. -/
theorem installTrace_props (env : DownloadEnv) (version url : String) (D : List String)
    (G : List FsOp)
    (hG : ∀ op ∈ G, targetsPath op ⟨D, "buck2"⟩ = false
            ∧ makesPresent op ⟨D, "buck2"⟩ = false)
    (htmp : env.tmpName ≠ "buck2") :
    (G ++ installOps D env version url).getLast?
      = some (.rename ⟨D, env.tmpName⟩ ⟨D, "buck2"⟩)
    ∧ (∀ op ∈ G ++ installOps D env version url,
        targetsPath op ⟨D, "buck2"⟩ = true →
        op = .rename ⟨D, env.tmpName⟩ ⟨D, "buck2"⟩)
    ∧ (∀ s₀ : FsState, s₀ ⟨D, "buck2"⟩ = none →
        ∀ k, k < (G ++ installOps D env version url).length →
          applyOps s₀ ((G ++ installOps D env version url).take k) ⟨D, "buck2"⟩ = none)
    ∧ (∀ s₀ : FsState,
        applyOps s₀ (G ++ installOps D env version url).dropLast ⟨D, env.tmpName⟩
          = some ⟨env.artifactData, 0o755, true⟩) := by
  have hneMarker : (⟨D, "prelude_hash"⟩ : FsPath) ≠ ⟨D, "buck2"⟩ :=
    fun h =>
      absurd (show "prelude_hash" = "buck2" from congrArg FsPath.file h) (by decide)
  have hneTmp : (⟨D, env.tmpName⟩ : FsPath) ≠ ⟨D, "buck2"⟩ :=
    fun h => htmp (congrArg FsPath.file h)
  have hfront : installOps D env version url
      = [FsOp.createDirAll D, FsOp.fetchUrl (preludeHashUrl version),
         FsOp.writeFile ⟨D, "prelude_hash"⟩ env.preludeHashData,
         FsOp.createTemp ⟨D, env.tmpName⟩, FsOp.fetchUrl url,
         FsOp.writeTemp ⟨D, env.tmpName⟩ env.artifactData,
         FsOp.flushTemp ⟨D, env.tmpName⟩,
         FsOp.setPermissions ⟨D, env.tmpName⟩ 0o755]
        ++ [FsOp.rename ⟨D, env.tmpName⟩ ⟨D, "buck2"⟩] := rfl
  have hsplit : G ++ installOps D env version url
      = (G ++ [FsOp.createDirAll D, FsOp.fetchUrl (preludeHashUrl version),
           FsOp.writeFile ⟨D, "prelude_hash"⟩ env.preludeHashData,
           FsOp.createTemp ⟨D, env.tmpName⟩, FsOp.fetchUrl url,
           FsOp.writeTemp ⟨D, env.tmpName⟩ env.artifactData,
           FsOp.flushTemp ⟨D, env.tmpName⟩,
           FsOp.setPermissions ⟨D, env.tmpName⟩ 0o755])
        ++ [FsOp.rename ⟨D, env.tmpName⟩ ⟨D, "buck2"⟩] := by
    rw [hfront, ← List.append_assoc]
  have hdrop : (G ++ installOps D env version url).dropLast
      = G ++ [FsOp.createDirAll D, FsOp.fetchUrl (preludeHashUrl version),
           FsOp.writeFile ⟨D, "prelude_hash"⟩ env.preludeHashData,
           FsOp.createTemp ⟨D, env.tmpName⟩, FsOp.fetchUrl url,
           FsOp.writeTemp ⟨D, env.tmpName⟩ env.artifactData,
           FsOp.flushTemp ⟨D, env.tmpName⟩,
           FsOp.setPermissions ⟨D, env.tmpName⟩ 0o755] := by
    rw [hsplit, List.dropLast_concat]
  have hmakes : ∀ op ∈ (G ++ installOps D env version url).dropLast,
      makesPresent op ⟨D, "buck2"⟩ = false := by
    rw [hdrop]
    intro op hop
    rcases List.mem_append.mp hop with hG' | hF
    · exact (hG op hG').2
    · simp only [List.mem_cons, List.not_mem_nil, or_false] at hF
      rcases hF with rfl | rfl | rfl | rfl | rfl | rfl | rfl | rfl
      · rfl
      · rfl
      · simp only [makesPresent, decide_eq_false_iff_not]; exact hneMarker
      · simp only [makesPresent, decide_eq_false_iff_not]; exact hneTmp
      · rfl
      · rfl
      · rfl
      · rfl
  refine ⟨?_, ?_, ?_, ?_⟩
  · rw [hsplit, List.getLast?_concat]
  · intro op hop htp
    rw [hfront] at hop
    rcases List.mem_append.mp hop with hG' | hF
    · rw [(hG op hG').1] at htp
      exact absurd htp (by decide)
    · rcases List.mem_append.mp hF with hFront | hLast
      · simp only [List.mem_cons, List.not_mem_nil, or_false] at hFront
        rcases hFront with rfl | rfl | rfl | rfl | rfl | rfl | rfl | rfl
        · simp [targetsPath] at htp
        · simp [targetsPath] at htp
        · simp only [targetsPath, decide_eq_true_eq] at htp
          exact absurd htp hneMarker
        · simp only [targetsPath, decide_eq_true_eq] at htp
          exact absurd htp hneTmp
        · simp [targetsPath] at htp
        · simp only [targetsPath, decide_eq_true_eq] at htp
          exact absurd htp hneTmp
        · simp only [targetsPath, decide_eq_true_eq] at htp
          exact absurd htp hneTmp
        · simp only [targetsPath, decide_eq_true_eq] at htp
          exact absurd htp hneTmp
      · simp only [List.mem_singleton] at hLast
        exact hLast
  · intro s₀ h0 k hk
    have hsub : ∀ op ∈ (G ++ installOps D env version url).take k,
        makesPresent op ⟨D, "buck2"⟩ = false :=
      fun op hop => hmakes op (mem_take_of_lt_length hk op hop)
    exact applyOps_absent hsub s₀ h0
  · intro s₀
    rw [hdrop, applyOps_append]
    simp [applyOps, applyOp]

/-- C1: the final path `dir_path/buck2` is published only by the terminal
rename of the install trace; the rename's source is the temporary file
created in the same directory, fully written with the decoded artifact,
flushed, and mode 0755; no other effect of the whole `download_http` run
targets the final name, and every strict prefix of the run (the process
killed before the rename) leaves the final path absent. -/
theorem atomic_publication (env : DownloadEnv) (version : String) (outputDir : List String)
    (nm url : String)
    (hfind : findArtifact env.releases version (assetPattern env.arch) = some (nm, url))
    (hbin : env.binaryPresent = false)
    (htmp : env.tmpName ≠ "buck2") :
    (download_http env version outputDir).result
      = .ok (outputDir ++ dirSuffix env.releases version)
    ∧ FsOp.createTemp ⟨outputDir ++ dirSuffix env.releases version, env.tmpName⟩
        ∈ (download_http env version outputDir).ops
    ∧ (download_http env version outputDir).ops.getLast?
        = some (.rename ⟨outputDir ++ dirSuffix env.releases version, env.tmpName⟩
                        ⟨outputDir ++ dirSuffix env.releases version, "buck2"⟩)
    ∧ (∀ op ∈ (download_http env version outputDir).ops,
        targetsPath op ⟨outputDir ++ dirSuffix env.releases version, "buck2"⟩ = true →
        op = .rename ⟨outputDir ++ dirSuffix env.releases version, env.tmpName⟩
                     ⟨outputDir ++ dirSuffix env.releases version, "buck2"⟩)
    ∧ (∀ s₀ : FsState,
        s₀ ⟨outputDir ++ dirSuffix env.releases version, "buck2"⟩ = none →
        ∀ k, k < (download_http env version outputDir).ops.length →
          applyOps s₀ ((download_http env version outputDir).ops.take k)
            ⟨outputDir ++ dirSuffix env.releases version, "buck2"⟩ = none)
    ∧ (∀ s₀ : FsState,
        applyOps s₀ (download_http env version outputDir).ops.dropLast
            ⟨outputDir ++ dirSuffix env.releases version, env.tmpName⟩
          = some ⟨env.artifactData, 0o755, true⟩) := by
  have hscan :
      (downloadLoop env.releases version (assetPattern env.arch) outputDir none).2
        = some (nm, url) := by
    rw [downloadLoop_snd_dir_irrel env.releases version (assetPattern env.arch) outputDir []]
    exact hfind
  have hdl : download_http env version outputDir
      = ⟨getReleasesOps outputDir env
           ++ installOps (outputDir ++ dirSuffix env.releases version) env version url,
         .ok (outputDir ++ dirSuffix env.releases version)⟩ := by
    simp [download_http, hscan, hbin, downloadLoop_fst]
  obtain ⟨hlast, htargets, habsent, htemp⟩ :=
    installTrace_props env version url (outputDir ++ dirSuffix env.releases version)
      (getReleasesOps outputDir env)
      (getReleasesOps_no_buck2 outputDir env _) htmp
  refine ⟨by rw [hdl], ?_, ?_, ?_, ?_, ?_⟩
  · rw [hdl]
    simp [installOps]
  · rw [hdl]
    exact hlast
  · rw [hdl]
    exact htargets
  · rw [hdl]
    exact habsent
  · rw [hdl]
    exact htemp

/-- Witness for C1 at the sample environment: the hypotheses hold, and in
particular the state after the first 4 effects (the process killed right
after creating the temporary file) has no file at the final path. -/
theorem atomic_publication_witness :
    findArtifact sampleEnv.releases "latest" (assetPattern sampleEnv.arch)
      = some ("buck2-x86_64-unknown-linux-gnu.zst", "https://example.com/a")
    ∧ sampleEnv.binaryPresent = false
    ∧ sampleEnv.tmpName ≠ "buck2"
    ∧ applyOps (fun _ => none) ((download_http sampleEnv "latest" []).ops.take 4)
        ⟨[] ++ dirSuffix sampleEnv.releases "latest", "buck2"⟩ = none :=
  ⟨by decide, rfl, by decide,
   (atomic_publication sampleEnv "latest" [] "buck2-x86_64-unknown-linux-gnu.zst"
      "https://example.com/a" (by decide) rfl (by decide)).2.2.2.2.1
     (fun _ => none) rfl 4 (by decide)⟩

/-- A git environment with a prelude submodule checked out at `abc`, but
whose `prelude_hash` marker file is absent from the buck2 cache dir. -/
def markerAbsentEnv : VerifyEnv :=
  { projectRoot := some "/r",
    repo := some { workdir := some "/r/", submodules := [⟨"prelude", some "abc"⟩] },
    preludeHashFile := none }

/-- C2 counterexample: with the marker file absent (and a submodule hash
present), `verify_prelude` aborts the process via the `unwrap` inside
`get_expected_prelude_hash` instead of silently skipping, so the resolved
binary is never executed. -/
theorem verify_prelude_marker_absent_cex :
    verify_prelude markerAbsentEnv "prelude"
      = .panicked "called Result::unwrap on an Err value: prelude_hash could not be opened"
    ∧ verify_prelude markerAbsentEnv "prelude" ≠ .ok [] := by
  constructor
  · decide
  · decide

/-- C2 (amended): a submodule-hash mismatch with the marker file present
emits only the two warning lines and still returns normally; "not a
repository", a missing project root, a missing submodule and a submodule
without a checked-out id are silently skipped; but when a submodule hash
is found and the marker file is absent the process aborts, as it does for
a bare repository. -/
theorem verify_prelude_behavior
    (env : VerifyEnv) (preludePath root workdir rel hash expected : String)
    (repo : RepoInfo) (sub : Submodule) :
    (env.repo = none → verify_prelude env preludePath = .ok [])
    ∧ (env.projectRoot = none → verify_prelude env preludePath = .ok [])
    ∧ (env.projectRoot = some root → env.repo = some repo →
        repo.workdir = some workdir →
        stripPathPre workdir (root ++ "/" ++ preludePath) = some rel →
        findSubmodule repo.submodules rel = none →
        verify_prelude env preludePath = .ok [])
    ∧ (env.projectRoot = some root → env.repo = some repo →
        repo.workdir = some workdir →
        stripPathPre workdir (root ++ "/" ++ preludePath) = some rel →
        findSubmodule repo.submodules rel = some sub → sub.workdirId = none →
        verify_prelude env preludePath = .ok [])
    ∧ (env.projectRoot = some root → env.repo = some repo →
        repo.workdir = some workdir →
        stripPathPre workdir (root ++ "/" ++ preludePath) = some rel →
        findSubmodule repo.submodules rel = some sub → sub.workdirId = some hash →
        env.preludeHashFile = some expected → hash ≠ strTrim expected →
        verify_prelude env preludePath
          = .ok (mismatched_prelude_msg (root ++ "/" ++ preludePath) hash (strTrim expected)))
    ∧ (env.projectRoot = some root → env.repo = some repo →
        repo.workdir = some workdir →
        stripPathPre workdir (root ++ "/" ++ preludePath) = some rel →
        findSubmodule repo.submodules rel = some sub → sub.workdirId = some hash →
        env.preludeHashFile = some expected → hash = strTrim expected →
        verify_prelude env preludePath = .ok [])
    ∧ (env.projectRoot = some root → env.repo = some repo →
        repo.workdir = some workdir →
        stripPathPre workdir (root ++ "/" ++ preludePath) = some rel →
        findSubmodule repo.submodules rel = some sub → sub.workdirId = some hash →
        env.preludeHashFile = none →
        verify_prelude env preludePath
          = .panicked "called Result::unwrap on an Err value: prelude_hash could not be opened")
    ∧ (env.projectRoot = some root → env.repo = some repo → repo.workdir = none →
        verify_prelude env preludePath = .panicked "buck2 is not for bare git repos") := by
  refine ⟨?_, ?_, ?_, ?_, ?_, ?_, ?_, ?_⟩
  · intro hrepo
    cases hpr : env.projectRoot <;> simp [verify_prelude, hpr, hrepo]
  · intro hpr
    simp [verify_prelude, hpr]
  · intro hpr hrepo hwd hstrip hfsub
    simp [verify_prelude, hpr, hrepo, hwd, hstrip, hfsub]
  · intro hpr hrepo hwd hstrip hfsub hid
    simp [verify_prelude, hpr, hrepo, hwd, hstrip, hfsub, hid]
  · intro hpr hrepo hwd hstrip hfsub hid hmarker hne
    simp [verify_prelude, hpr, hrepo, hwd, hstrip, hfsub, hid, hmarker,
      get_expected_prelude_hash, hne]
  · intro hpr hrepo hwd hstrip hfsub hid hmarker heq
    simp [verify_prelude, hpr, hrepo, hwd, hstrip, hfsub, hid, hmarker,
      get_expected_prelude_hash, heq]
  · intro hpr hrepo hwd hstrip hfsub hid hmarker
    simp [verify_prelude, hpr, hrepo, hwd, hstrip, hfsub, hid, hmarker,
      get_expected_prelude_hash]
  · intro hpr hrepo hwd
    simp [verify_prelude, hpr, hrepo, hwd]

/-- A git environment whose prelude submodule hash `abc` disagrees with
the marker file contents `def0`. -/
def mismatchEnv : VerifyEnv :=
  { projectRoot := some "/r",
    repo := some { workdir := some "/r/", submodules := [⟨"prelude", some "abc"⟩] },
    preludeHashFile := some "def0\n" }

/-- Witness for the amended C2 theorem: a concrete mismatch yields exactly
the two warning lines and a normal return. -/
theorem verify_prelude_behavior_witness :
    mismatchEnv.projectRoot = some "/r"
    ∧ mismatchEnv.preludeHashFile = some "def0\n"
    ∧ ("abc" : String) ≠ strTrim "def0\n"
    ∧ verify_prelude mismatchEnv "prelude"
        = .ok (mismatched_prelude_msg ("/r" ++ "/" ++ "prelude") "abc"
            (strTrim "def0\n")) :=
  ⟨rfl, rfl, by decide,
   (verify_prelude_behavior mismatchEnv "prelude" "/r" "/r/" "prelude" "abc" "def0\n"
      ⟨some "/r/", [⟨"prelude", some "abc"⟩]⟩
      ⟨"prelude", some "abc"⟩).2.2.2.2.1 rfl rfl rfl (by decide) (by decide) rfl rfl
     (by decide)⟩

end Buckle
